import Mathlib

/-!
# SoftShop — a shallow embedding of the server's storage layer and routes

This file embeds the data model (`src/shared/schema.ts`, plus the SQL DDL in
`src/attached_assets/` that created the live tables), the storage layer
(`src/server/storage.ts`, latest revision, lines 683–1805 of the concatenated
file) and the HTTP route layer (`src/unnamed/part_008`, `registerRoutes`).

Modelling conventions:
* uuids are modelled as `Nat` ids (fresh ids drawn from a counter in the state);
  note that vendor ids are uuid *strings* in JS, so object-key grouping in
  `createOrder` preserves first-occurrence insertion order.
* `decimal(10,2)` prices are modelled as exact `Nat` values (think cents);
  the JS `parseFloat`/number arithmetic on them is modelled as exact arithmetic.
* integer columns that JS treats as arbitrary numbers (`cart.quantity`,
  `ratings.rating`) are modelled as `Int`.
* each async storage method becomes a pure function on an explicit `DBState`;
  a method that can `throw` returns `Except String α × DBState`, where the
  returned state reflects exactly the writes executed before the throw
  (there are no transactions in the source).
-/

namespace SoftShop

/-- A row of the `users` table (`src/shared/schema.ts` lines 5–15). -/
structure UserRow where
  id : Nat
  email : String
  password_hash : String
  role : String
  name : Option String
  is_active : Bool
deriving Repr, DecidableEq

/-- A row of the `vendor_profiles` table (`src/shared/schema.ts` lines 17–30),
restricted to the fields the modelled operations touch. -/
structure VendorProfileRow where
  user_id : Nat
  brand_name : String
  is_approved : Bool
deriving Repr, DecidableEq

/-- A row of the `products` table (`src/shared/schema.ts` lines 32–44). -/
structure ProductRow where
  id : Nat
  vendor_id : Nat
  name : String
  price : Nat
  category : Option String
  stock : Int
  is_active : Bool
deriving Repr, DecidableEq

/-- A row of the `cart` table (`src/shared/schema.ts` lines 46–51). -/
structure CartRow where
  user_id : Nat
  product_id : Nat
  quantity : Int
deriving Repr, DecidableEq

/-- The order status enum (`src/shared/schema.ts` line 58 and the DDL
`CHECK (status IN ('pending','paid','fulfilled','cancelled'))`). -/
inductive OrderStatus where
  | pending
  | paid
  | fulfilled
  | cancelled
deriving Repr, DecidableEq

/-- The product snapshot embedded in a joined cart line by
`getCartItems` (`storage.ts` lines 1083–1094: `products!inner (id, name,
price, image_url, vendor_id)`); `image_url` is omitted as unobservable. -/
structure ProductSnap where
  id : Nat
  name : String
  price : Nat
  vendor_id : Nat
deriving Repr, DecidableEq

/-- One element of an order's `items` jsonb column: exactly the shape
produced by `getCartItems` (`storage.ts` lines 1102–1107). -/
structure OrderItem where
  user_id : Nat
  product_id : Nat
  quantity : Int
  product : ProductSnap
deriving Repr, DecidableEq

/-- A row of the `orders` table (`src/shared/schema.ts` lines 53–62). -/
structure OrderRow where
  id : Nat
  user_id : Nat
  vendor_id : Nat
  items : List OrderItem
  total : Nat
  status : OrderStatus
deriving Repr, DecidableEq

/-- A row of the `ratings` table (`src/shared/schema.ts` lines 64–71); the
surrogate uuid `id` is omitted as unobservable.  The live table carries
`UNIQUE(user_id, product_id)` and `CHECK (rating >= 1 AND rating <= 5)`
(DDL in `src/attached_assets/`). -/
structure RatingRow where
  user_id : Nat
  product_id : Nat
  rating : Int
  comment : Option String
deriving Repr, DecidableEq

/-- The whole backing store, one list per table, plus a fresh-id counter
standing in for uuid generation. -/
structure DBState where
  users : List UserRow
  vendor_profiles : List VendorProfileRow
  products : List ProductRow
  cart : List CartRow
  orders : List OrderRow
  ratings : List RatingRow
  settings : List (String × String)
  nextId : Nat
deriving Repr, DecidableEq

/-! ## Cart reads -/

/-- The user's raw cart rows, in table order. -/
def cartLines (u : Nat) (s : DBState) : List CartRow :=
  s.cart.filter fun c => decide (c.user_id = u)

/-- Row lookup for the `products!inner` join: the first `products` row with
the given id. -/
def lookupProduct (s : DBState) (pid : Nat) : Option ProductRow :=
  s.products.find? fun p => decide (p.id = pid)

/-- The join of one cart row with its product, or `none` when the inner
join drops the row. -/
def joinLine (s : DBState) (c : CartRow) : Option OrderItem :=
  (lookupProduct s c.product_id).map fun p =>
    { user_id := c.user_id
      product_id := c.product_id
      quantity := c.quantity
      product := { id := p.id, name := p.name, price := p.price,
                   vendor_id := p.vendor_id } }

/-- `SupabaseStorage.getCartItems` (`storage.ts` lines 1078–1112): the user's
cart rows inner-joined with `products`; a cart row whose product id has no
`products` row is dropped by the inner join. -/
def getCartItems (u : Nat) (s : DBState) : List OrderItem :=
  (cartLines u s).filterMap (joinLine s)

/-- `SupabaseStorage.getCartCount` (`storage.ts` lines 1114–1132): sum of the
user's cart quantities. -/
def getCartCount (u : Nat) (s : DBState) : Int :=
  (cartLines u s).foldl (fun acc c => acc + c.quantity) 0

/-! ## Cart writes -/

/-- The body of an `insertCartSchema`-parsed POST /api/cart request:
`quantity` is optional (the zod schema derives it from a defaulted column). -/
structure InsertCartItem where
  user_id : Nat
  product_id : Nat
  quantity : Option Int
deriving Repr, DecidableEq

/-- The JS expression `cartItem.quantity || 1` (`storage.ts` line 1154):
`undefined` and the falsy number `0` both fall back to `1`. -/
def jsQuantityOr1 : Option Int → Int
  | none => 1
  | some q => if q = 0 then 1 else q

/-- `SupabaseStorage.addToCart` (`storage.ts` lines 1134–1176): if a row for
the (user, product) pair exists its quantity is increased by
`cartItem.quantity || 1`, otherwise the item is inserted as one new row
(an absent quantity takes the column default 1). -/
def addToCart (it : InsertCartItem) (s : DBState) : DBState :=
  match s.cart.find? fun c =>
      decide (c.user_id = it.user_id) && decide (c.product_id = it.product_id) with
  | some existing =>
      { s with cart := s.cart.map fun c =>
          if decide (c.user_id = it.user_id) && decide (c.product_id = it.product_id) then
            { c with quantity := existing.quantity + jsQuantityOr1 it.quantity }
          else c }
  | none =>
      { s with cart := s.cart ++
          [{ user_id := it.user_id, product_id := it.product_id,
             quantity := it.quantity.getD 1 }] }

/-- `SupabaseStorage.updateCartItem` (`storage.ts` lines 1178–1194). -/
def updateCartItem (u pid : Nat) (q : Int) (s : DBState) : DBState :=
  { s with cart := s.cart.map fun c =>
      if decide (c.user_id = u) && decide (c.product_id = pid) then
        { c with quantity := q }
      else c }

/-- `SupabaseStorage.removeFromCart` (`storage.ts` lines 1196–1212). -/
def removeFromCart (u pid : Nat) (s : DBState) : DBState :=
  { s with cart := s.cart.filter fun c =>
      !(decide (c.user_id = u) && decide (c.product_id = pid)) }

/-- `SupabaseStorage.clearCart` (`storage.ts` lines 1214–1229): deletes every
cart row of the user. -/
def clearCart (u : Nat) (s : DBState) : DBState :=
  { s with cart := s.cart.filter fun c => !decide (c.user_id = u) }

/-! ## Checkout -/

/-- First-occurrence key order of the JS accumulator object in
`createOrder`'s `reduce` grouping (`storage.ts` lines 1242–1249): vendor ids
are uuid strings, so `Object.entries` preserves insertion order. -/
def firstKeys : List Nat → List Nat
  | [] => []
  | a :: l => a :: firstKeys (l.filter fun b => !decide (b = a))
termination_by l => l.length
decreasing_by
  simp only [List.length_cons]
  exact Nat.lt_succ_of_le (List.length_filter_le _ _)

/-- The per-vendor total (`storage.ts` lines 1255–1257): a left fold of
`sum + price * quantity` starting at 0, over the vendor's joined lines.
The result is a `Nat` because checkout items have nonnegative prices and
the quantities appearing in practice are positive; we keep the exact JS
fold shape over `Int` values and truncate at the end like `toString` of a
nonnegative number.  To stay faithful we fold in `Int`. -/
def vendorTotalInt (items : List OrderItem) : Int :=
  items.foldl (fun acc it => acc + (it.product.price : Int) * it.quantity) 0

/-- Builds one order per vendor key, in key order, with consecutive fresh
ids, mirroring the insert loop of `createOrder` (`storage.ts` lines
1253–1289); each order is inserted with status `'paid'` (line 1269). -/
def mkOrders (u : Nat) (items : List OrderItem) : Nat → List Nat → List OrderRow
  | _, [] => []
  | nid, v :: vs =>
      let vitems := items.filter fun it => decide (it.product.vendor_id = v)
      { id := nid, user_id := u, vendor_id := v, items := vitems,
        total := (vendorTotalInt vitems).toNat, status := .paid }
        :: mkOrders u items (nid + 1) vs

/-- `SupabaseStorage.createOrder` (`storage.ts` lines 1231–1300).  The
`orderData` argument of the source is ignored by its body and therefore
omitted.  Snapshot the joined cart, fail on an empty snapshot, partition by
vendor, insert one `'paid'` order per vendor, clear the cart, and return the
first order.  The 30-second auto-fulfil `setTimeout` (lines 1282–1288) is
modelled separately as the `Event.fulfillTimerEv` transition. -/
def createOrder (u : Nat) (s : DBState) : Except String OrderRow × DBState :=
  let items := getCartItems u s
  if items.isEmpty then
    (.error "Failed to create order", s)
  else
    let vendors := firstKeys (items.map fun it => it.product.vendor_id)
    let newOrders := mkOrders u items s.nextId vendors
    let s1 := { s with orders := s.orders ++ newOrders,
                       nextId := s.nextId + newOrders.length }
    match newOrders.head? with
    | some o => (.ok o, clearCart u s1)
    | none => (.error "Failed to create order", clearCart u s1)

/-- `SupabaseStorage.updateOrderStatus` (`storage.ts` lines 1323–1338):
a single-column update of `status` on the matching order row. -/
def updateOrderStatus (oid : Nat) (st : OrderStatus) (s : DBState) : DBState :=
  { s with orders := s.orders.map fun o =>
      if decide (o.id = oid) then { o with status := st } else o }

/-! ## Ratings -/

/-- Whether two rating rows collide on the `UNIQUE(user_id, product_id)` key. -/
def sameRatingKey (a b : RatingRow) : Bool :=
  decide (a.user_id = b.user_id) && decide (a.product_id = b.product_id)

/-- One `ON CONFLICT (user_id, product_id) DO UPDATE` upsert of a single row:
the conflicting row (unique, by the table's key constraint) has its
`rating` and `comment` overwritten in place, otherwise the row is appended. -/
def upsertRating (r : RatingRow) : List RatingRow → List RatingRow
  | [] => [r]
  | x :: xs =>
      if sameRatingKey r x then
        { x with rating := r.rating, comment := r.comment } :: xs
      else
        x :: upsertRating r xs

/-- The batched `.upsert(ratings, onConflict user_id,product_id)` of
`rateOrder` (`storage.ts` lines 1708–1713), applied row by row. -/
def upsertRatings (rows : List RatingRow) (rs : List RatingRow) : List RatingRow :=
  rows.foldl (fun acc r => upsertRating r acc) rs

/-- `SupabaseStorage.rateOrder` (`storage.ts` lines 1683–1723).  The order is
fetched by `id` *and* `user_id` (ownership check, lines 1688–1693); its
status is never consulted.  One rating per item of the order is then
upserted in a single statement.  The statement is atomic: it fails (writing
nothing) when the shared rating value violates the live table's
`CHECK (rating >= 1 AND rating <= 5)`, or when two batch rows collide on the
unique key (Postgres rejects a twice-affected row in one upsert). -/
def rateOrder (u oid : Nat) (rating : Int) (comment : Option String)
    (s : DBState) : Except String Unit × DBState :=
  match s.orders.find? fun o => decide (o.id = oid) && decide (o.user_id = u) with
  | none => (.error "Failed to submit rating", s)
  | some o =>
      let rows := o.items.map fun it =>
        RatingRow.mk u it.product_id rating comment
      if rating < 1 ∨ 5 < rating then
        (.error "Failed to submit rating", s)
      else if !(o.items.map fun it => it.product_id).Nodup then
        (.error "Failed to submit rating", s)
      else
        (.ok (), { s with ratings := upsertRatings rows s.ratings })

/-! ## Products -/

/-- A `Partial<Product>` patch as accepted by `updateProduct`. -/
structure ProductPatch where
  name : Option String := none
  price : Option Nat := none
  category : Option (Option String) := none
  stock : Option Int := none
  is_active : Option Bool := none
deriving Repr, DecidableEq

/-- Applies a partial update to one product row. -/
def applyProductPatch (p : ProductPatch) (row : ProductRow) : ProductRow :=
  { row with
    name := p.name.getD row.name
    price := p.price.getD row.price
    category := p.category.getD row.category
    stock := p.stock.getD row.stock
    is_active := p.is_active.getD row.is_active }

/-- `SupabaseStorage.updateProduct` (`storage.ts` lines 1040–1059): an
update on the `products` table only, keyed by product id. -/
def updateProduct (pid : Nat) (patch : ProductPatch) (s : DBState) : DBState :=
  { s with products := s.products.map fun p =>
      if decide (p.id = pid) then applyProductPatch patch p else p }

/-- The body of a new product insert. -/
structure InsertProduct where
  vendor_id : Nat
  name : String
  price : Nat
  category : Option String
  stock : Int
  is_active : Bool
deriving Repr, DecidableEq

/-- `SupabaseStorage.createProduct` (`storage.ts` lines 1020–1038). -/
def createProduct (p : InsertProduct) (s : DBState) : DBState :=
  { s with
    products := s.products ++
      [{ id := s.nextId, vendor_id := p.vendor_id, name := p.name,
         price := p.price, category := p.category, stock := p.stock,
         is_active := p.is_active }]
    nextId := s.nextId + 1 }

/-- `SupabaseStorage.deleteProduct` (`storage.ts` lines 1061–1076), with the
schema's `ON DELETE CASCADE` from `cart.product_id` (`schema.ts` line 48)
and `ratings.product_id` (line 67). -/
def deleteProduct (pid : Nat) (s : DBState) : DBState :=
  { s with
    products := s.products.filter fun p => !decide (p.id = pid)
    cart := s.cart.filter fun c => !decide (c.product_id = pid)
    ratings := s.ratings.filter fun r => !decide (r.product_id = pid) }

/-! ## Users -/

/-- The body of an `insertUserSchema`-parsed registration. -/
structure InsertUser where
  email : String
  password_hash : String
  role : String
  name : Option String
deriving Repr, DecidableEq

/-- `SupabaseStorage.createUser` (`storage.ts` lines 838–874): inserts the
user (with the bcrypt hash of the submitted password, modelled abstractly
as a `hash` tag), and for a vendor also inserts a `vendor_profiles` row. -/
def createUser (d : InsertUser) (s : DBState) : DBState :=
  let row : UserRow :=
    { id := s.nextId, email := d.email,
      password_hash := "bcrypt:" ++ d.password_hash, role := d.role,
      name := d.name, is_active := true }
  let s1 := { s with users := s.users ++ [row], nextId := s.nextId + 1 }
  if d.role = "vendor" then
    { s1 with vendor_profiles := s1.vendor_profiles ++
        [{ user_id := row.id, brand_name := d.name.getD "New Vendor",
           is_approved := false }] }
  else s1

/-- A `Partial<User>` patch as accepted by `updateUser`. -/
structure UserPatch where
  email : Option String := none
  password_hash : Option String := none
  role : Option String := none
  name : Option (Option String) := none
  is_active : Option Bool := none
deriving Repr, DecidableEq

/-- Applies a partial update to one user row. -/
def applyUserPatch (p : UserPatch) (row : UserRow) : UserRow :=
  { row with
    email := p.email.getD row.email
    password_hash := p.password_hash.getD row.password_hash
    role := p.role.getD row.role
    name := p.name.getD row.name
    is_active := p.is_active.getD row.is_active }

/-- `SupabaseStorage.updateUser` (`storage.ts` lines 896–915): an update on
the `users` table only; the full updated row is returned to the caller. -/
def updateUserState (uid : Nat) (patch : UserPatch) (s : DBState) : DBState :=
  { s with users := s.users.map fun u =>
      if decide (u.id = uid) then applyUserPatch patch u else u }

/-- `SupabaseStorage.deleteUser` (`storage.ts` lines 1666–1681) together with
the DDL's referential actions: `cart`, `orders.user_id`, `ratings` and
`vendor_profiles` rows cascade; `orders.vendor_id` has no action, so the
delete is rejected (an error is thrown, nothing changes) when an order still
references the user as vendor; `products.vendor_id` cascades, which in turn
cascades the deleted products' cart and rating rows. -/
def deleteUser (uid : Nat) (s : DBState) : DBState :=
  if s.orders.any fun o => decide (o.vendor_id = uid) then s
  else
    let deadProducts := s.products.filter fun p => decide (p.vendor_id = uid)
    let deadPid := fun pid => deadProducts.any fun p => decide (p.id = pid)
    { s with
      users := s.users.filter fun u => !decide (u.id = uid)
      vendor_profiles := s.vendor_profiles.filter fun v => !decide (v.user_id = uid)
      products := s.products.filter fun p => !decide (p.vendor_id = uid)
      cart := s.cart.filter fun c => !(decide (c.user_id = uid) || deadPid c.product_id)
      orders := s.orders.filter fun o => !decide (o.user_id = uid)
      ratings := s.ratings.filter fun r => !(decide (r.user_id = uid) || deadPid r.product_id) }

/-! ## Settings -/

/-- One `upsert(setting, onConflict key)` of `updateSettings`
(`storage.ts` lines 1780–1803). -/
def upsertSetting (kv : String × String) (kvs : List (String × String)) :
    List (String × String) :=
  if kvs.any fun x => decide (x.1 = kv.1) then
    kvs.map fun x => if decide (x.1 = kv.1) then (x.1, kv.2) else x
  else
    kvs ++ [kv]

/-- `SupabaseStorage.updateSettings` (`storage.ts` lines 1780–1803). -/
def updateSettings (kvs : List (String × String)) (s : DBState) : DBState :=
  { s with settings := kvs.foldl (fun acc kv => upsertSetting kv acc) s.settings }

/-! ## HTTP rating routes (`src/unnamed/part_008`) -/

/-- The response classes the modelled routes produce. -/
inductive HttpResp where
  | ok
  | unauthorized (msg : String)
  | badRequest (msg : String)
  | serverError (msg : String)
deriving Repr, DecidableEq

/-- `POST /api/orders/:orderId/rate` (`part_008` lines 181–200):
requires the `user-id` header, rejects `!rating || rating < 1 || rating > 5`
with a 400 before touching storage (`0` is falsy and is caught by
`rating < 1` anyway), then calls `storage.rateOrder`; a storage throw
becomes a generic 500. -/
def rateOrderIdRoute (u : Option Nat) (oid : Nat) (rating : Int)
    (comment : Option String) (s : DBState) : HttpResp × DBState :=
  match u with
  | none => (.unauthorized "User not authenticated", s)
  | some uid =>
      if rating < 1 ∨ 5 < rating then
        (.badRequest "Rating must be between 1 and 5", s)
      else
        match rateOrder uid oid rating comment s with
        | (.ok _, s1) => (.ok, s1)
        | (.error _, s1) => (.serverError "Failed to submit rating", s1)

/-- `POST /api/orders/rate` (`part_008` lines 456–469): requires the
`user-id` header and forwards straight to `storage.rateOrder` with **no
validation of the rating value**; a storage throw becomes a generic 500. -/
def ordersRateRoute (u : Option Nat) (oid : Nat) (rating : Int)
    (comment : Option String) (s : DBState) : HttpResp × DBState :=
  match u with
  | none => (.unauthorized "User not authenticated", s)
  | some uid =>
      match rateOrder uid oid rating comment s with
      | (.ok _, s1) => (.ok, s1)
      | (.error _, s1) => (.serverError "Failed to submit rating", s1)

/-! ## User-returning responses (`src/unnamed/part_008`, `storage.ts`)

The JSON object sent for a user is modelled as an association list of
field name to rendered value, so that the destructuring pattern
`const (pattern) = user; res.json(rest)` of the routes is the literal
removal of one key. -/

/-- The serialised `users` row, every column included. -/
def userToJson (u : UserRow) : List (String × String) :=
  [("id", toString u.id), ("email", u.email),
   ("password_hash", u.password_hash), ("role", u.role),
   ("name", u.name.getD "null"), ("is_active", toString u.is_active)]

/-- Removal of one key from a serialised object — the JS rest-destructuring
idiom used in the routes and in `getAllUsers`/`getAllVendors`. -/
def omitKey (k : String) (obj : List (String × String)) : List (String × String) :=
  obj.filter fun kv => !decide (kv.1 = k)

/-- The sanitised user object every stripping site produces. -/
def sanitizeUser (u : UserRow) : List (String × String) :=
  omitKey "password_hash" (userToJson u)

/-- `POST /api/auth/login` (`part_008` lines 9–24): on a successful
`authenticateUser` the row is returned with `password_hash` removed. -/
def loginRouteBody (auth : Option UserRow) : Option (List (String × String)) :=
  auth.map sanitizeUser

/-- `POST /api/auth/register` (`part_008` lines 26–40): the created row is
returned with `password_hash` removed. -/
def registerRouteBody (created : UserRow) : List (String × String) :=
  sanitizeUser created

/-- `GET /api/user/profile` and `GET /api/users/:id` (`part_008` lines
203–238): the fetched row is returned with `password_hash` removed. -/
def profileRouteBody (fetched : Option UserRow) : Option (List (String × String)) :=
  fetched.map sanitizeUser

/-- `PATCH /api/user/profile` (`part_008` lines 240–256): the updated row is
returned with `password_hash` removed. -/
def updateProfileRouteBody (updated : UserRow) : List (String × String) :=
  sanitizeUser updated

/-- `SupabaseStorage.getAllUsers` (`storage.ts` lines 1596–1616), the body of
`GET /api/admin/users`: every row is returned with `password_hash` removed
inside the storage layer. -/
def getAllUsersBody (s : DBState) : List (List (String × String)) :=
  s.users.map sanitizeUser

/-- `SupabaseStorage.getAllVendors` (`storage.ts` lines 1618–1642), the body
of `GET /api/admin/vendors`: the vendor-role rows, each with
`password_hash` removed inside the storage layer (the joined
`vendor_profiles` columns are appended and carry no password field). -/
def getAllVendorsBody (s : DBState) : List (List (String × String)) :=
  (s.users.filter fun u => decide (u.role = "vendor")).map sanitizeUser

/-- `PATCH /api/admin/users/:id` (`part_008` lines 421–429): the route sends
`storage.updateUser`'s return value directly — `res.json(user)` — with no
key removed. -/
def adminUpdateUserRouteBody (updated : UserRow) : List (String × String) :=
  userToJson updated

/-- `PATCH /api/admin/users/:id` end to end: `storage.updateUser` applies
the patch and returns the updated row (`.select().single()`), which the
route serialises unsanitised; when no row matches, `.single()` errs,
`updateUser` rethrows and the route answers a generic 500 (`none` here). -/
def adminUpdateUserRoute (uid : Nat) (patch : UserPatch) (s : DBState) :
    Option (List (String × String)) × DBState :=
  let s1 := updateUserState uid patch s
  match s1.users.find? fun u => decide (u.id = uid) with
  | some u => (some (userToJson u), s1)
  | none => (none, s1)

/-! ## Storage-layer exception behaviour (`storage.ts`, claim C7)

Each storage method wraps its body in `try/catch`.  To observe what a
method does when the backing store raises, the store's answer is passed in
as an `Except`: `.error` is the raised exception. -/

/-- `SupabaseStorage.getProducts` (`storage.ts` lines 917–946): both the
query-error branch and the catch branch return the empty list. -/
def getProductsResult (store : Except String (List ProductRow)) : List ProductRow :=
  match store with
  | .ok ps => ps
  | .error _ => []

/-- `SupabaseStorage.getUserById` (`storage.ts` lines 876–894): both error
branches return `null`. -/
def getUserByIdResult (store : Except String UserRow) : Option UserRow :=
  match store with
  | .ok u => some u
  | .error _ => none

/-- The zeroed record `getVendorStats` falls back to. -/
structure VendorStats where
  revenue : String
  orders : Nat
  products : Nat
  rating : String
deriving Repr, DecidableEq

/-- `SupabaseStorage.getVendorStats` (`storage.ts` lines 1340–1403): the
catch branch returns the zeroed stats record. -/
def getVendorStatsResult (store : Except String VendorStats) : VendorStats :=
  match store with
  | .ok v => v
  | .error _ => { revenue := "0.00", orders := 0, products := 0, rating := "0.0" }

/-- `SupabaseStorage.updateUser` (`storage.ts` lines 896–915): the catch
branch does **not** return a sentinel — it rethrows

`throw new Error(..)` with the fixed message, so the caller's promise
rejects. -/
def updateUserResult (store : Except String UserRow) : Except String UserRow :=
  match store with
  | .ok u => .ok u
  | .error _ => .error "Failed to update user"

/-- Discriminates a successful storage result from a propagated error. -/
def resultOk {α : Type} : Except String α → Bool
  | .ok _ => true
  | .error _ => false

/-! ## The mutation surface as one transition system (claim C6)

One constructor per state-mutating operation reachable from the routes of
`part_008`, plus the scheduled auto-fulfil timers (`storage.ts` lines
1282–1288 and `part_008` lines 152–159, both of which call
`updateOrderStatus(order.id, 'fulfilled')`).  Read-only routes do not mutate
the state and need no constructor. -/
inductive Event where
  | registerEv (d : InsertUser)
  | updateUserEv (uid : Nat) (patch : UserPatch)
  | deleteUserEv (uid : Nat)
  | createProductEv (p : InsertProduct)
  | updateProductEv (pid : Nat) (patch : ProductPatch)
  | deleteProductEv (pid : Nat)
  | addToCartEv (it : InsertCartItem)
  | updateCartItemEv (u pid : Nat) (q : Int)
  | removeFromCartEv (u pid : Nat)
  | clearCartEv (u : Nat)
  | checkoutEv (u : Nat)
  | fulfillTimerEv (oid : Nat)
  | rateOrderEv (u oid : Nat) (r : Int) (c : Option String)
  | updateSettingsEv (kvs : List (String × String))
deriving Repr, DecidableEq

/-- The state reached after one operation of the program. -/
def step (e : Event) (s : DBState) : DBState :=
  match e with
  | .registerEv d => createUser d s
  | .updateUserEv uid patch => updateUserState uid patch s
  | .deleteUserEv uid => deleteUser uid s
  | .createProductEv p => createProduct p s
  | .updateProductEv pid patch => updateProduct pid patch s
  | .deleteProductEv pid => deleteProduct pid s
  | .addToCartEv it => addToCart it s
  | .updateCartItemEv u pid q => updateCartItem u pid q s
  | .removeFromCartEv u pid => removeFromCart u pid s
  | .clearCartEv u => clearCart u s
  | .checkoutEv u => (createOrder u s).2
  | .fulfillTimerEv oid => updateOrderStatus oid .fulfilled s
  | .rateOrderEv u oid r c => (rateOrder u oid r c s).2
  | .updateSettingsEv kvs => updateSettings kvs s

/-! ## Specification-side readings

These definitions follow the spec's wording ("the sum over that vendor's
lines of unit price × quantity", "lines span V distinct vendors", the
uniqueness invariants) and are compared against the code path. -/

/-- The vendor of each of the user's cart lines, read off the product row
each line references, in cart order. -/
def cartVendors (u : Nat) (s : DBState) : List Nat :=
  (cartLines u s).filterMap fun c =>
    (lookupProduct s c.product_id).map fun p => p.vendor_id

/-- The spec's per-vendor checkout total: over the user's cart lines whose
product belongs to vendor `v`, the sum of unit price × quantity. -/
def specVendorTotal (s : DBState) (u v : Nat) : Int :=
  ((cartLines u s).filterMap fun c =>
    match lookupProduct s c.product_id with
    | some p => if p.vendor_id = v then some ((p.price : Int) * c.quantity) else none
    | none => none).sum

/-- Every stored rating lies in the 1–5 range. -/
def ratingsInRange (rs : List RatingRow) : Prop :=
  ∀ x ∈ rs, 1 ≤ x.rating ∧ x.rating ≤ 5

/-- At most one rating row per (user, product) pair — the invariant the
live `UNIQUE(user_id, product_id)` constraint maintains. -/
def ratingsKeyUnique (rs : List RatingRow) : Prop :=
  List.Pairwise (fun a b => ¬(a.user_id = b.user_id ∧ a.product_id = b.product_id)) rs

/-- At most one cart line per (user, product) pair. -/
def cartKeyUnique (cs : List CartRow) : Prop :=
  List.Pairwise (fun a b => ¬(a.user_id = b.user_id ∧ a.product_id = b.product_id)) cs

/-! ## Helper lemmas: checkout -/

theorem mem_firstKeys {a : Nat} : ∀ {l : List Nat}, a ∈ firstKeys l ↔ a ∈ l
  | [] => by simp [firstKeys]
  | b :: l => by
      rw [firstKeys]
      by_cases hab : a = b
      · subst hab; simp
      · simp only [List.mem_cons, hab, false_or]
        rw [mem_firstKeys (l := l.filter fun x => !decide (x = b))]
        simp [List.mem_filter, hab]
termination_by l => l.length
decreasing_by
  simp only [List.length_cons]
  exact Nat.lt_succ_of_le (List.length_filter_le _ _)

theorem nodup_firstKeys : ∀ l : List Nat, (firstKeys l).Nodup
  | [] => by simp [firstKeys]
  | b :: l => by
      rw [firstKeys]
      refine List.nodup_cons.mpr ⟨?_, nodup_firstKeys _⟩
      rw [mem_firstKeys]
      simp [List.mem_filter]
termination_by l => l.length
decreasing_by
  simp only [List.length_cons]
  exact Nat.lt_succ_of_le (List.length_filter_le _ _)

theorem firstKeys_toFinset (l : List Nat) : (firstKeys l).toFinset = l.toFinset := by
  ext a
  simp [List.mem_toFinset, mem_firstKeys]

theorem length_firstKeys (l : List Nat) : (firstKeys l).length = l.toFinset.card := by
  rw [← firstKeys_toFinset, List.toFinset_card_of_nodup (nodup_firstKeys l)]

theorem mkOrders_map_vendor (u : Nat) (items : List OrderItem) :
    ∀ (nid : Nat) (vs : List Nat),
      (mkOrders u items nid vs).map (fun o => o.vendor_id) = vs := by
  intro nid vs
  induction vs generalizing nid with
  | nil => rfl
  | cons v vs ih => simp [mkOrders, ih]

theorem mkOrders_length (u : Nat) (items : List OrderItem) (nid : Nat)
    (vs : List Nat) : (mkOrders u items nid vs).length = vs.length := by
  induction vs generalizing nid with
  | nil => rfl
  | cons v vs ih => simp [mkOrders, ih]

theorem mem_mkOrders {u : Nat} {items : List OrderItem} {nid : Nat}
    {vs : List Nat} {o : OrderRow} (h : o ∈ mkOrders u items nid vs) :
    o.user_id = u ∧ o.vendor_id ∈ vs ∧ o.status = .paid ∧
    o.items = items.filter (fun it => decide (it.product.vendor_id = o.vendor_id)) ∧
    o.total = (vendorTotalInt o.items).toNat := by
  induction vs generalizing nid with
  | nil => simp [mkOrders] at h
  | cons v vs ih =>
      rw [mkOrders] at h
      rcases List.mem_cons.mp h with h | h
      · subst h
        refine ⟨rfl, List.mem_cons_self _ _, rfl, rfl, rfl⟩
      · obtain ⟨h1, h2, h3, h4, h5⟩ := ih h
        exact ⟨h1, List.mem_cons_of_mem _ h2, h3, h4, h5⟩

theorem vendorTotalInt_eq_sum (items : List OrderItem) :
    vendorTotalInt items =
      (items.map fun it => (it.product.price : Int) * it.quantity).sum := by
  have key : ∀ (l : List OrderItem) (a : Int),
      l.foldl (fun acc it => acc + (it.product.price : Int) * it.quantity) a =
        a + (l.map fun it => (it.product.price : Int) * it.quantity).sum := by
    intro l
    induction l with
    | nil => simp
    | cons x xs ih => intro a; simp [ih, add_assoc]
  simpa using key items 0

theorem map_vendor_join (s : DBState) (l : List CartRow) :
    ((l.filterMap (joinLine s)).map fun it => it.product.vendor_id) =
      l.filterMap fun c => (lookupProduct s c.product_id).map fun p => p.vendor_id := by
  induction l with
  | nil => rfl
  | cons c l ih =>
      cases h : lookupProduct s c.product_id with
      | none => simp [List.filterMap_cons, joinLine, h, ih]
      | some p => simp [List.filterMap_cons, joinLine, h, ih]

theorem items_map_vendor (u : Nat) (s : DBState) :
    ((getCartItems u s).map fun it => it.product.vendor_id) = cartVendors u s :=
  map_vendor_join s (cartLines u s)

theorem vendor_amounts_join (s : DBState) (v : Nat) (l : List CartRow) :
    (((l.filterMap (joinLine s)).filter fun it =>
        decide (it.product.vendor_id = v)).map fun it =>
          (it.product.price : Int) * it.quantity) =
      l.filterMap fun c =>
        match lookupProduct s c.product_id with
        | some p => if p.vendor_id = v then some ((p.price : Int) * c.quantity) else none
        | none => none := by
  induction l with
  | nil => rfl
  | cons c l ih =>
      cases h : lookupProduct s c.product_id with
      | none => simp [List.filterMap_cons, joinLine, h, ih]
      | some p =>
          by_cases hv : p.vendor_id = v
          · simp [List.filterMap_cons, joinLine, h, hv, ih]
          · simp [List.filterMap_cons, joinLine, h, hv, ih]

theorem items_vendor_total (u : Nat) (s : DBState) (v : Nat) :
    vendorTotalInt ((getCartItems u s).filter fun it =>
        decide (it.product.vendor_id = v)) = specVendorTotal s u v := by
  rw [vendorTotalInt_eq_sum, specVendorTotal]
  rw [getCartItems, vendor_amounts_join]

theorem cartLines_clearCart (u : Nat) (s : DBState) :
    cartLines u (clearCart u s) = [] := by
  simp only [cartLines, clearCart]
  rw [List.filter_filter]
  apply List.filter_eq_nil_iff.mpr
  intro c _
  simp

theorem createOrder_state (s : DBState) (u : Nat) (h : getCartItems u s ≠ []) :
    (createOrder u s).2 =
      clearCart u
        { s with
          orders := s.orders ++ mkOrders u (getCartItems u s) s.nextId
            (firstKeys ((getCartItems u s).map fun it => it.product.vendor_id)),
          nextId := s.nextId + (mkOrders u (getCartItems u s) s.nextId
            (firstKeys ((getCartItems u s).map fun it =>
              it.product.vendor_id))).length } := by
  have hfalse : (getCartItems u s).isEmpty = false := by
    cases h' : getCartItems u s with
    | nil => exact absurd h' h
    | cons a l => rfl
  simp only [createOrder, hfalse, Bool.false_eq_true, if_false]
  cases (mkOrders u (getCartItems u s) s.nextId
      (firstKeys ((getCartItems u s).map fun it => it.product.vendor_id))).head? with
  | none => rfl
  | some o => rfl

theorem getCartItems_ne_nil (u : Nat) (s : DBState)
    (hne : cartLines u s ≠ [])
    (hfk : ∀ c ∈ cartLines u s, (lookupProduct s c.product_id).isSome) :
    getCartItems u s ≠ [] := by
  obtain ⟨c, l, hl⟩ : ∃ c l, cartLines u s = c :: l := by
    cases h' : cartLines u s with
    | nil => exact absurd h' hne
    | cons c l => exact ⟨c, l, rfl⟩
  have hc := hfk c (by rw [hl]; exact List.mem_cons_self _ _)
  rw [getCartItems, hl, List.filterMap_cons]
  cases hj : joinLine s c with
  | none =>
      exfalso
      rw [joinLine] at hj
      cases hx : lookupProduct s c.product_id with
      | none => rw [hx] at hc; simp at hc
      | some p => rw [hx] at hj; simp at hj
  | some it => simp

theorem getCartItems_quantity_nonneg (u : Nat) (s : DBState)
    (hq : ∀ c ∈ cartLines u s, 0 ≤ c.quantity) :
    ∀ it ∈ getCartItems u s, 0 ≤ it.quantity := by
  intro it hit
  rw [getCartItems] at hit
  obtain ⟨c, hc, hj⟩ := List.mem_filterMap.mp hit
  rw [joinLine] at hj
  cases hx : lookupProduct s c.product_id with
  | none => rw [hx] at hj; simp at hj
  | some p =>
      rw [hx] at hj
      simp only [Option.map_some'] at hj
      cases hj
      exact hq c hc

theorem vendorTotalInt_nonneg (items : List OrderItem)
    (h : ∀ it ∈ items, 0 ≤ it.quantity) : 0 ≤ vendorTotalInt items := by
  rw [vendorTotalInt_eq_sum]
  apply List.sum_nonneg
  intro x hx
  obtain ⟨it, hit, rfl⟩ := List.mem_map.mp hx
  exact mul_nonneg (Int.natCast_nonneg _) (h it hit)

/-- A concrete store realising the spec's §8 example: vendor 1 sells a
10.00 product (qty 2 in the cart of user 7), vendor 2 a 5.00 product
(qty 1); prices in cents. -/
def demoState : DBState :=
  { users := [{ id := 7, email := "shopper@example.com",
                password_hash := "bcrypt:pw", role := "user",
                name := some "Shopper", is_active := true }]
    vendor_profiles := []
    products := [{ id := 10, vendor_id := 1, name := "Widget", price := 1000,
                   category := none, stock := 5, is_active := true },
                 { id := 11, vendor_id := 2, name := "Gizmo", price := 500,
                   category := none, stock := 5, is_active := true }]
    cart := [{ user_id := 7, product_id := 10, quantity := 2 },
             { user_id := 7, product_id := 11, quantity := 1 }]
    orders := []
    ratings := []
    settings := []
    nextId := 100 }

/-! ## Claim theorems -/

/-- C1: for every non-empty cart whose lines span V distinct vendors,
`createOrder(userId, orderData)` creates exactly V order records, one per
vendor, each order's total equal to the sum over that vendor's lines of
(unit price × quantity), and after the call the user's cart contains zero
lines.  The hypotheses state the database's referential integrity for the
cart (`cart.product_id REFERENCES products(id)`) and the nonnegativity of
the stored quantities. -/
theorem checkout_splits_per_vendor (s : DBState) (u : Nat)
    (hne : cartLines u s ≠ [])
    (hfk : ∀ c ∈ cartLines u s, (lookupProduct s c.product_id).isSome)
    (hq : ∀ c ∈ cartLines u s, 0 ≤ c.quantity) :
    ∃ newOrders : List OrderRow,
      (createOrder u s).2.orders = s.orders ++ newOrders ∧
      (newOrders.map fun o => o.vendor_id).Nodup ∧
      newOrders.length = (cartVendors u s).toFinset.card ∧
      (∀ v, (v ∈ newOrders.map fun o => o.vendor_id) ↔ v ∈ cartVendors u s) ∧
      (∀ o ∈ newOrders, o.user_id = u ∧
        (o.total : Int) = specVendorTotal s u o.vendor_id) ∧
      cartLines u (createOrder u s).2 = [] := by
  have hne' := getCartItems_ne_nil u s hne hfk
  rw [createOrder_state s u hne']
  refine ⟨mkOrders u (getCartItems u s) s.nextId
      (firstKeys ((getCartItems u s).map fun it => it.product.vendor_id)),
    ?_, ?_, ?_, ?_, ?_, cartLines_clearCart u _⟩
  · rfl
  · rw [mkOrders_map_vendor]; exact nodup_firstKeys _
  · rw [mkOrders_length, length_firstKeys, items_map_vendor]
  · intro v
    rw [mkOrders_map_vendor, mem_firstKeys, items_map_vendor]
  · intro o ho
    obtain ⟨h1, _, _, h4, h5⟩ := mem_mkOrders ho
    refine ⟨h1, ?_⟩
    have hnn : 0 ≤ vendorTotalInt o.items := by
      apply vendorTotalInt_nonneg
      intro it hit
      rw [h4] at hit
      exact getCartItems_quantity_nonneg u s hq it (List.mem_filter.mp hit).1
    rw [h5, Int.toNat_of_nonneg hnn, h4, items_vendor_total]

/-- C1 witness: the spec's §8 example cart (two lines, two vendors)
checked on the concrete `demoState`. -/
theorem checkout_splits_per_vendor_witness :
    ∃ newOrders : List OrderRow,
      (createOrder 7 demoState).2.orders = demoState.orders ++ newOrders ∧
      (newOrders.map fun o => o.vendor_id).Nodup ∧
      newOrders.length = (cartVendors 7 demoState).toFinset.card ∧
      (∀ v, (v ∈ newOrders.map fun o => o.vendor_id) ↔ v ∈ cartVendors 7 demoState) ∧
      (∀ o ∈ newOrders, o.user_id = 7 ∧
        (o.total : Int) = specVendorTotal demoState 7 o.vendor_id) ∧
      cartLines 7 (createOrder 7 demoState).2 = [] :=
  checkout_splits_per_vendor demoState 7 (by decide) (by decide) (by decide)

/-- C2: checkout on an empty cart fails and leaves the entire store — in
particular the orders table — unchanged. -/
theorem checkout_empty_cart_fails (s : DBState) (u : Nat)
    (h : cartLines u s = []) :
    createOrder u s = (.error "Failed to create order", s) := by
  have hempty : getCartItems u s = [] := by rw [getCartItems, h]; rfl
  simp [createOrder, hempty]

/-- C2 witness: user 9 has no cart lines in `demoState`. -/
theorem checkout_empty_cart_fails_witness :
    cartLines 9 demoState = [] ∧
    createOrder 9 demoState = (.error "Failed to create order", demoState) :=
  ⟨by decide, checkout_empty_cart_fails demoState 9 (by decide)⟩

theorem updateOrderStatus_frame (oid : Nat) (st : OrderStatus) (s : DBState) :
    ∀ o' ∈ (updateOrderStatus oid st s).orders, ∃ o ∈ s.orders,
      o.id = o'.id ∧ o.user_id = o'.user_id ∧ o.vendor_id = o'.vendor_id ∧
      o.items = o'.items ∧ o.total = o'.total := by
  intro o' ho'
  rw [updateOrderStatus] at ho'
  obtain ⟨o, ho, rfl⟩ := List.mem_map.mp ho'
  refine ⟨o, ho, ?_⟩
  by_cases h : o.id = oid
  · simp [h]
  · simp [h]

/-- C5: an order is a snapshot — a later `updateProduct` (price change or
otherwise) leaves the orders table untouched; every order created by
checkout carries its items and a total computed from the prices at snapshot
time; and `updateOrderStatus` (the only post-creation order mutation in the
code) changes nothing but the status field. -/
theorem order_snapshot_immutable (s : DBState) (u pid : Nat)
    (patch : ProductPatch) (oid : Nat) (st : OrderStatus)
    (hne : cartLines u s ≠ [])
    (hfk : ∀ c ∈ cartLines u s, (lookupProduct s c.product_id).isSome)
    (hq : ∀ c ∈ cartLines u s, 0 ≤ c.quantity) :
    (updateProduct pid patch (createOrder u s).2).orders =
      (createOrder u s).2.orders ∧
    (∃ newOrders, (createOrder u s).2.orders = s.orders ++ newOrders ∧
      ∀ o ∈ newOrders,
        (o.total : Int) = specVendorTotal s u o.vendor_id ∧
        o.items = (getCartItems u s).filter fun it =>
          decide (it.product.vendor_id = o.vendor_id)) ∧
    (∀ o' ∈ (updateOrderStatus oid st (createOrder u s).2).orders,
      ∃ o ∈ (createOrder u s).2.orders,
        o.id = o'.id ∧ o.user_id = o'.user_id ∧ o.vendor_id = o'.vendor_id ∧
        o.items = o'.items ∧ o.total = o'.total) := by
  have hne' := getCartItems_ne_nil u s hne hfk
  refine ⟨rfl, ?_, updateOrderStatus_frame oid st _⟩
  rw [createOrder_state s u hne']
  refine ⟨mkOrders u (getCartItems u s) s.nextId
      (firstKeys ((getCartItems u s).map fun it => it.product.vendor_id)), ?_, ?_⟩
  · rfl
  · intro o ho
    obtain ⟨_, _, _, h4, h5⟩ := mem_mkOrders ho
    have hnn : 0 ≤ vendorTotalInt o.items := by
      apply vendorTotalInt_nonneg
      intro it hit
      rw [h4] at hit
      exact getCartItems_quantity_nonneg u s hq it (List.mem_filter.mp hit).1
    constructor
    · rw [h5, Int.toNat_of_nonneg hnn, h4, items_vendor_total]
    · exact h4

/-- C5 witness: run on `demoState` with a price change of product 10 and a
status flip of order 100 afterward. -/
theorem order_snapshot_immutable_witness :
    (updateProduct 10 { price := some 9999 } (createOrder 7 demoState).2).orders =
      (createOrder 7 demoState).2.orders ∧
    (∃ newOrders, (createOrder 7 demoState).2.orders = demoState.orders ++ newOrders ∧
      ∀ o ∈ newOrders,
        (o.total : Int) = specVendorTotal demoState 7 o.vendor_id ∧
        o.items = (getCartItems 7 demoState).filter fun it =>
          decide (it.product.vendor_id = o.vendor_id)) ∧
    (∀ o' ∈ (updateOrderStatus 100 .fulfilled (createOrder 7 demoState).2).orders,
      ∃ o ∈ (createOrder 7 demoState).2.orders,
        o.id = o'.id ∧ o.user_id = o'.user_id ∧ o.vendor_id = o'.vendor_id ∧
        o.items = o'.items ∧ o.total = o'.total) :=
  order_snapshot_immutable demoState 7 10 { price := some 9999 } 100 .fulfilled
    (by decide) (by decide) (by decide)

/-- A store holding one `'paid'` (not yet fulfilled) order of user 7 over
vendor 1's product 10, with no stored ratings. -/
def paidOrderState : DBState :=
  { users := demoState.users
    vendor_profiles := []
    products := demoState.products
    cart := []
    orders := [{ id := 1, user_id := 7, vendor_id := 1,
                 items := [{ user_id := 7, product_id := 10, quantity := 2,
                             product := { id := 10, name := "Widget",
                                          price := 1000, vendor_id := 1 } }],
                 total := 2000, status := .paid }]
    ratings := []
    settings := []
    nextId := 100 }

/-- C3 counterexample: order 1 of user 7 is `'paid'`, not `'fulfilled'`, yet
`rateOrder` succeeds and writes a rating row — the claim's "fails with an
error and zero rating rows are written" is false for an owned non-fulfilled
order. -/
theorem rating_nonfulfilled_succeeds :
    (paidOrderState.orders.map fun o => o.status) = [.paid] ∧
    (rateOrder 7 1 4 none paidOrderState).1 = .ok () ∧
    (rateOrder 7 1 4 none paidOrderState).2.ratings =
      [{ user_id := 7, product_id := 10, rating := 4, comment := none }] :=
  ⟨by decide, rfl, by decide⟩

/-- C3 amended: `rateOrder` fails (leaving the store unchanged) when no
order with that id belongs to the user; the order's status is never
consulted — overwriting the statuses of the orders table changes neither
the outcome nor the written ratings. -/
theorem rateOrder_ignores_status (s : DBState) (u oid : Nat) (r : Int)
    (c : Option String) (st : OrderStatus) :
    ((s.orders.find? fun o =>
        decide (o.id = oid) && decide (o.user_id = u)) = none →
      rateOrder u oid r c s = (.error "Failed to submit rating", s)) ∧
    (rateOrder u oid r c (updateOrderStatus oid st s)).1 =
      (rateOrder u oid r c s).1 ∧
    (rateOrder u oid r c (updateOrderStatus oid st s)).2.ratings =
      (rateOrder u oid r c s).2.ratings := by
  constructor
  · intro hnone
    rw [rateOrder, hnone]
  · have hfind : (updateOrderStatus oid st s).orders.find?
        (fun o => decide (o.id = oid) && decide (o.user_id = u)) =
        ((s.orders.find? fun o =>
          decide (o.id = oid) && decide (o.user_id = u)).map
            fun o => if decide (o.id = oid) then { o with status := st } else o) := by
      rw [updateOrderStatus]
      rw [List.find?_map]
      have hcomp : ((fun o : OrderRow =>
            decide (o.id = oid) && decide (o.user_id = u)) ∘ fun o =>
              if decide (o.id = oid) then { o with status := st } else o) =
          fun o : OrderRow => decide (o.id = oid) && decide (o.user_id = u) := by
        funext o
        by_cases h : o.id = oid
        · simp [Function.comp, h]
        · simp [Function.comp, h]
      rw [hcomp]
    rw [rateOrder, rateOrder, hfind]
    cases hf : s.orders.find? fun o =>
        decide (o.id = oid) && decide (o.user_id = u) with
    | none => simp [updateOrderStatus]
    | some o =>
        simp only [Option.map_some']
        have hitems : (if decide (o.id = oid) then { o with status := st } else o).items
            = o.items := by
          by_cases h : o.id = oid
          · simp [h]
          · simp [h]
        rw [hitems]
        by_cases h1 : r < 1 ∨ 5 < r
        · simp [h1, updateOrderStatus]
        · by_cases h2 : (o.items.map fun it => it.product_id).Nodup
          · simp [h1, h2, updateOrderStatus]
          · simp [h1, h2, updateOrderStatus]

/-- C3 amended witness: user 7 owns no order 2 in `paidOrderState`, and the
status-blindness instance at order 1. -/
theorem rateOrder_ignores_status_witness :
    ((paidOrderState.orders.find? fun o =>
        decide (o.id = 2) && decide (o.user_id = 7)) = none →
      rateOrder 7 2 4 none paidOrderState =
        (.error "Failed to submit rating", paidOrderState)) ∧
    (rateOrder 7 2 4 none (updateOrderStatus 2 .pending paidOrderState)).1 =
      (rateOrder 7 2 4 none paidOrderState).1 ∧
    (rateOrder 7 2 4 none (updateOrderStatus 2 .pending paidOrderState)).2.ratings =
      (rateOrder 7 2 4 none paidOrderState).2.ratings :=
  rateOrder_ignores_status paidOrderState 7 2 4 none .pending

/-! ## Helper lemmas: the transition system -/

theorem rateOrder_orders (u oid : Nat) (r : Int) (c : Option String)
    (s : DBState) : (rateOrder u oid r c s).2.orders = s.orders := by
  rw [rateOrder]
  cases s.orders.find? fun o => decide (o.id = oid) && decide (o.user_id = u) with
  | none => rfl
  | some o =>
      by_cases h1 : r < 1 ∨ 5 < r
      · simp [h1]
      · by_cases h2 : (o.items.map fun it => it.product_id).Nodup
        · simp [h1, h2]
        · simp [h1, h2]

theorem createOrder_orders_shape (u : Nat) (s : DBState) :
    (createOrder u s).2.orders = s.orders ∨
    ∃ newOrders, (createOrder u s).2.orders = s.orders ++ newOrders ∧
      ∀ o ∈ newOrders, o.status = .paid := by
  by_cases h : getCartItems u s = []
  · left
    simp [createOrder, h]
  · right
    rw [createOrder_state s u h]
    refine ⟨mkOrders u (getCartItems u s) s.nextId
        (firstKeys ((getCartItems u s).map fun it => it.product.vendor_id)),
      ?_, ?_⟩
    · rfl
    · intro o ho
      exact (mem_mkOrders ho).2.2.1

/-- C6: no operation of the program — checkout, the scheduled auto-fulfil
transitions, or any mutation reachable from the routes — ever sets an
order's status to `'cancelled'`, and none ever (re)sets `'pending'`: an
order whose status reads `'cancelled'` or `'pending'` after a step already
read so before the step, hence no order transitions back to `'pending'`
from `'paid'` or `'fulfilled'`. -/
theorem order_status_transitions_safe (e : Event) (s : DBState)
    (o' : OrderRow) (h : o' ∈ (step e s).orders) :
    (o'.status = .cancelled →
      ∃ o ∈ s.orders, o.id = o'.id ∧ o.status = .cancelled) ∧
    (o'.status = .pending →
      ∃ o ∈ s.orders, o.id = o'.id ∧ o.status = .pending) := by
  have self : o' ∈ s.orders →
      (o'.status = .cancelled →
        ∃ o ∈ s.orders, o.id = o'.id ∧ o.status = .cancelled) ∧
      (o'.status = .pending →
        ∃ o ∈ s.orders, o.id = o'.id ∧ o.status = .pending) :=
    fun hm => ⟨fun hc => ⟨o', hm, rfl, hc⟩, fun hp => ⟨o', hm, rfl, hp⟩⟩
  cases e with
  | registerEv d =>
      apply self
      rw [step, createUser] at h
      split at h <;> exact h
  | updateUserEv uid patch => exact self h
  | deleteUserEv uid =>
      apply self
      rw [step, deleteUser] at h
      split at h
      · exact h
      · exact List.mem_of_mem_filter h
  | createProductEv p => exact self h
  | updateProductEv pid patch => exact self h
  | deleteProductEv pid => exact self h
  | addToCartEv it =>
      apply self
      rw [step, addToCart] at h
      split at h <;> exact h
  | updateCartItemEv u pid q => exact self h
  | removeFromCartEv u pid => exact self h
  | clearCartEv u => exact self h
  | checkoutEv u =>
      rw [step] at h
      rcases createOrder_orders_shape u s with hsh | ⟨newOrders, hsh, hpaid⟩
      · rw [hsh] at h
        exact self h
      · rw [hsh] at h
        rcases List.mem_append.mp h with hL | hR
        · exact self hL
        · have hst := hpaid o' hR
          constructor
          · intro hc; rw [hst] at hc; cases hc
          · intro hp; rw [hst] at hp; cases hp
  | fulfillTimerEv oid =>
      rw [step, updateOrderStatus] at h
      obtain ⟨o, ho, rfl⟩ := List.mem_map.mp h
      by_cases hid : o.id = oid
      · constructor
        · intro hc; rw [if_pos (by simp [hid])] at hc; cases hc
        · intro hp; rw [if_pos (by simp [hid])] at hp; cases hp
      · have heq : (if decide (o.id = oid) then
            { o with status := OrderStatus.fulfilled } else o) = o := by
          simp [hid]
        rw [heq]
        exact ⟨fun hc => ⟨o, ho, rfl, hc⟩, fun hp => ⟨o, ho, rfl, hp⟩⟩
  | rateOrderEv u oid r c =>
      apply self
      rw [step, rateOrder_orders] at h
      exact h
  | updateSettingsEv kvs => exact self h

/-- C6 witness: the auto-fulfil timer firing on the `'paid'` order of
`paidOrderState`. -/
theorem order_status_transitions_safe_witness :
    { id := 1, user_id := 7, vendor_id := 1,
      items := [{ user_id := 7, product_id := 10, quantity := 2,
                  product := { id := 10, name := "Widget",
                               price := 1000, vendor_id := 1 } }],
      total := 2000, status := OrderStatus.fulfilled : OrderRow } ∈
      (step (.fulfillTimerEv 1) paidOrderState).orders ∧
    ((OrderStatus.fulfilled = OrderStatus.cancelled →
      ∃ o ∈ paidOrderState.orders, o.id = 1 ∧ o.status = .cancelled) ∧
     (OrderStatus.fulfilled = OrderStatus.pending →
      ∃ o ∈ paidOrderState.orders, o.id = 1 ∧ o.status = .pending)) := by
  refine ⟨by decide, ?_⟩
  exact order_status_transitions_safe (.fulfillTimerEv 1) paidOrderState
    { id := 1, user_id := 7, vendor_id := 1,
      items := [{ user_id := 7, product_id := 10, quantity := 2,
                  product := { id := 10, name := "Widget",
                               price := 1000, vendor_id := 1 } }],
      total := 2000, status := OrderStatus.fulfilled } (by decide)

/-- C7 counterexample: `updateUser` does not return a sentinel when the
backing store raises — it catches the exception and rethrows a generic
error, so its caller's promise rejects (`storage.ts` lines 911–914). -/
theorem updateUser_propagates_error :
    resultOk (updateUserResult (.error "fetch failed: network unreachable")) =
      false ∧
    updateUserResult (.error "fetch failed: network unreachable") =
      .error "Failed to update user" :=
  ⟨rfl, rfl⟩

/-- C7 amended: the read-side storage functions (`getProducts`,
`getUserById`, `getVendorStats`, …) swallow any store exception and return
an empty/zero/null sentinel, but the write-side functions such as
`updateUser` catch the exception and rethrow a generic error instead. -/
theorem storage_exception_policy (e : String) :
    getProductsResult (.error e) = [] ∧
    getUserByIdResult (.error e) = none ∧
    getVendorStatsResult (.error e) =
      { revenue := "0.00", orders := 0, products := 0, rating := "0.0" } ∧
    updateUserResult (.error e) = .error "Failed to update user" ∧
    resultOk (updateUserResult (.error e)) = false :=
  ⟨rfl, rfl, rfl, rfl, rfl⟩

/-- C9 counterexample: the admin user-update route returns the updated row
unsanitised, so the response carries the `password_hash` field — here the
row of user 7 in `demoState` after an admin patch of the name. -/
theorem admin_update_leaks_password_hash :
    ("password_hash", "bcrypt:pw") ∈
      ((adminUpdateUserRoute 7 { name := some (some "Renamed") } demoState).1.getD []) := by
  decide

/-- C9 amended: every user-returning operation except
`PATCH /api/admin/users/:id` — login, register, profile get/update,
`getAllUsers`, `getAllVendors` — strips `password_hash` from the response;
the admin update route returns the full row including `password_hash`. -/
theorem user_responses_sanitized (u : UserRow) (s : DBState) :
    "password_hash" ∉ (sanitizeUser u).map Prod.fst ∧
    loginRouteBody (some u) = some (sanitizeUser u) ∧
    registerRouteBody u = sanitizeUser u ∧
    profileRouteBody (some u) = some (sanitizeUser u) ∧
    updateProfileRouteBody u = sanitizeUser u ∧
    (∀ obj ∈ getAllUsersBody s, "password_hash" ∉ obj.map Prod.fst) ∧
    (∀ obj ∈ getAllVendorsBody s, "password_hash" ∉ obj.map Prod.fst) ∧
    ("password_hash", u.password_hash) ∈ adminUpdateUserRouteBody u := by
  have hclean : ∀ v : UserRow, "password_hash" ∉ (sanitizeUser v).map Prod.fst := by
    intro v hmem
    obtain ⟨kv, hkv, hfst⟩ := List.mem_map.mp hmem
    have := List.mem_filter.mp hkv
    rw [hfst] at this
    simp at this
  refine ⟨hclean u, rfl, rfl, rfl, rfl, ?_, ?_, ?_⟩
  · intro obj hobj
    obtain ⟨v, _, rfl⟩ := List.mem_map.mp hobj
    exact hclean v
  · intro obj hobj
    obtain ⟨v, _, rfl⟩ := List.mem_map.mp hobj
    exact hclean v
  · simp [adminUpdateUserRouteBody, userToJson]

/-! ## Helper lemmas: rating range -/

theorem rateOrder_out_of_range (s : DBState) (u oid : Nat) (r : Int)
    (c : Option String) (hout : r < 1 ∨ 5 < r) :
    rateOrder u oid r c s = (.error "Failed to submit rating", s) := by
  rw [rateOrder]
  cases s.orders.find? fun o => decide (o.id = oid) && decide (o.user_id = u) with
  | none => rfl
  | some o => simp [hout]

theorem mem_upsertRating {x r : RatingRow} :
    ∀ {rs : List RatingRow}, x ∈ upsertRating r rs →
      x.rating = r.rating ∨ x ∈ rs := by
  intro rs
  induction rs with
  | nil =>
      intro h
      rw [upsertRating] at h
      rcases List.mem_singleton.mp h with rfl
      exact Or.inl rfl
  | cons y ys ih =>
      intro h
      rw [upsertRating] at h
      by_cases hk : sameRatingKey r y = true
      · rw [if_pos hk] at h
        rcases List.mem_cons.mp h with rfl | h
        · exact Or.inl rfl
        · exact Or.inr (List.mem_cons_of_mem _ h)
      · rw [if_neg hk] at h
        rcases List.mem_cons.mp h with rfl | h
        · exact Or.inr (List.mem_cons_self _ _)
        · rcases ih h with h1 | h1
          · exact Or.inl h1
          · exact Or.inr (List.mem_cons_of_mem _ h1)

theorem mem_upsertRatings {x : RatingRow} :
    ∀ {rows rs : List RatingRow}, x ∈ upsertRatings rows rs →
      (∃ r0 ∈ rows, x.rating = r0.rating) ∨ x ∈ rs := by
  intro rows
  induction rows with
  | nil => intro rs h; exact Or.inr h
  | cons r rows ih =>
      intro rs h
      rw [upsertRatings, List.foldl_cons] at h
      rcases ih h with ⟨r0, hr0, hx⟩ | hx
      · exact Or.inl ⟨r0, List.mem_cons_of_mem _ hr0, hx⟩
      · rcases mem_upsertRating hx with h1 | h1
        · exact Or.inl ⟨r, List.mem_cons_self _ _, h1⟩
        · exact Or.inr h1

theorem rateOrder_preserves_range (s : DBState) (u oid : Nat) (r : Int)
    (c : Option String) (hs : ratingsInRange s.ratings) :
    ratingsInRange (rateOrder u oid r c s).2.ratings := by
  rw [rateOrder]
  cases s.orders.find? fun o => decide (o.id = oid) && decide (o.user_id = u) with
  | none => exact hs
  | some o =>
      dsimp only
      by_cases h1 : r < 1 ∨ 5 < r
      · rw [if_pos h1]
        exact hs
      · rw [if_neg h1]
        by_cases h2 : (o.items.map fun it => it.product_id).Nodup
        · rw [if_neg (by simp [h2])]
          intro x hx
          rcases mem_upsertRatings hx with ⟨r0, hr0, hxr⟩ | hx2
          · obtain ⟨it, _, rfl⟩ := List.mem_map.mp hr0
            rw [hxr]
            push_neg at h1
            exact ⟨h1.1, h1.2⟩
          · exact hs x hx2
        · rw [if_pos (by simp [h2])]
          exact hs

theorem ordersRateRoute_state (u oid : Nat) (r : Int) (c : Option String)
    (s : DBState) : (ordersRateRoute (some u) oid r c s).2 =
      (rateOrder u oid r c s).2 := by
  rw [ordersRateRoute]
  cases h : rateOrder u oid r c s with
  | mk res s1 => cases res <;> simp

theorem rateOrderIdRoute_state (u oid : Nat) (r : Int) (c : Option String)
    (s : DBState) : (rateOrderIdRoute (some u) oid r c s).2 =
      if r < 1 ∨ 5 < r then s else (rateOrder u oid r c s).2 := by
  rw [rateOrderIdRoute]
  by_cases hout : r < 1 ∨ 5 < r
  · simp [hout]
  · simp only [hout, if_false]
    cases h : rateOrder u oid r c s with
    | mk res s1 => cases res <;> simp

/-- C8 counterexample: an out-of-range rating submitted through
`POST /api/orders/rate` is not rejected with a validation error — the
route forwards it unvalidated and answers a generic 500 (the database
check constraint blocks the write, so the state is unchanged). -/
theorem out_of_range_rating_gets_500_not_400 :
    (ordersRateRoute (some 7) 1 6 none paidOrderState).1 =
      .serverError "Failed to submit rating" ∧
    (ordersRateRoute (some 7) 1 6 none paidOrderState).2 = paidOrderState :=
  ⟨rfl, by decide⟩

/-- C8 amended: only `POST /api/orders/:orderId/rate` rejects an
out-of-range rating with a 400 validation error; `POST /api/orders/rate`
forwards it unvalidated, the database `CHECK (rating >= 1 AND rating <= 5)`
rejects the write and the route answers a generic 500.  Either way zero
rating rows are written, and any store whose ratings all lie in 1..5 keeps
that property under both routes at every rating value. -/
theorem rating_range_enforcement (s : DBState) (u oid : Nat) (r : Int)
    (c : Option String) (hout : r < 1 ∨ 5 < r) :
    rateOrderIdRoute (some u) oid r c s =
      (.badRequest "Rating must be between 1 and 5", s) ∧
    ordersRateRoute (some u) oid r c s =
      (.serverError "Failed to submit rating", s) ∧
    (ratingsInRange s.ratings → ∀ r2 : Int, ∀ c2 : Option String,
      ratingsInRange (rateOrderIdRoute (some u) oid r2 c2 s).2.ratings ∧
      ratingsInRange (ordersRateRoute (some u) oid r2 c2 s).2.ratings) := by
  refine ⟨?_, ?_, ?_⟩
  · rw [rateOrderIdRoute]
    simp [hout]
  · rw [ordersRateRoute, rateOrder_out_of_range s u oid r c hout]
  · intro hs r2 c2
    constructor
    · rw [rateOrderIdRoute_state]
      by_cases h2 : r2 < 1 ∨ 5 < r2
      · simp only [h2, if_true]
        exact hs
      · simp only [h2, if_false]
        exact rateOrder_preserves_range s u oid r2 c2 hs
    · rw [ordersRateRoute_state]
      exact rateOrder_preserves_range s u oid r2 c2 hs

/-- C8 amended witness: rating 6 on order 1 of `paidOrderState`. -/
theorem rating_range_enforcement_witness :
    rateOrderIdRoute (some 7) 1 6 none paidOrderState =
      (.badRequest "Rating must be between 1 and 5", paidOrderState) ∧
    ordersRateRoute (some 7) 1 6 none paidOrderState =
      (.serverError "Failed to submit rating", paidOrderState) ∧
    (ratingsInRange paidOrderState.ratings → ∀ r2 : Int, ∀ c2 : Option String,
      ratingsInRange (rateOrderIdRoute (some 7) 1 r2 c2 paidOrderState).2.ratings ∧
      ratingsInRange (ordersRateRoute (some 7) 1 r2 c2 paidOrderState).2.ratings) :=
  rating_range_enforcement paidOrderState 7 1 6 none (by decide)

/-! ## Helper lemmas: upsert idempotence -/

/-- Whether a rating row carries the (user, product) key under scrutiny. -/
def keyB (u p : Nat) (x : RatingRow) : Bool :=
  decide (x.user_id = u) && decide (x.product_id = p)

theorem keyB_true {u p : Nat} {x : RatingRow} :
    keyB u p x = true ↔ x.user_id = u ∧ x.product_id = p := by
  simp [keyB]

theorem sameRatingKey_true {a b : RatingRow} :
    sameRatingKey a b = true ↔
      a.user_id = b.user_id ∧ a.product_id = b.product_id := by
  simp [sameRatingKey]

theorem filter_upsertRating (u p : Nat) (r : RatingRow) :
    ∀ rs : List RatingRow,
      (upsertRating r rs).filter (keyB u p) =
        if r.user_id = u ∧ r.product_id = p then
          upsertRating r (rs.filter (keyB u p))
        else rs.filter (keyB u p) := by
  intro rs
  induction rs with
  | nil =>
      by_cases h1 : r.user_id = u <;> by_cases h2 : r.product_id = p <;>
        simp [upsertRating, keyB, h1, h2]
  | cons x xs ih =>
      by_cases hk : sameRatingKey r x = true
      · have hkey := sameRatingKey_true.mp hk
        by_cases h1 : x.user_id = u <;> by_cases h2 : x.product_id = p <;>
          simp [upsertRating, keyB, List.filter_cons, hk, hkey.1, hkey.2,
            h1, h2]
      · have hkey : ¬(r.user_id = x.user_id ∧ r.product_id = x.product_id) :=
          fun h => hk (sameRatingKey_true.mpr h)
        by_cases hr1 : r.user_id = u <;> by_cases hr2 : r.product_id = p <;>
          by_cases h1 : x.user_id = u <;> by_cases h2 : x.product_id = p <;>
          simp [upsertRating, keyB, List.filter_cons, hk, ih,
            hr1, hr2, h1, h2]

theorem filter_upsertRatings (u p : Nat) :
    ∀ (rows rs : List RatingRow),
      (upsertRatings rows rs).filter (keyB u p) =
        upsertRatings (rows.filter (keyB u p)) (rs.filter (keyB u p))
  | [], rs => rfl
  | r :: rows, rs => by
      rw [upsertRatings, List.foldl_cons,
        show rows.foldl (fun acc r2 => upsertRating r2 acc) (upsertRating r rs) =
          upsertRatings rows (upsertRating r rs) from rfl,
        filter_upsertRatings u p rows (upsertRating r rs),
        filter_upsertRating u p r rs, List.filter_cons]
      by_cases hr : r.user_id = u ∧ r.product_id = p
      · rw [if_pos hr, if_pos (keyB_true.mpr hr)]
        rfl
      · rw [if_neg hr, if_neg (fun h => hr (keyB_true.mp h))]

theorem batch_filter_single (u p : Nat) (r : Int) (c : Option String)
    (items : List OrderItem)
    (hnd : (items.map fun it => it.product_id).Nodup)
    (hp : p ∈ items.map fun it => it.product_id) :
    (items.map fun it =>
        RatingRow.mk u it.product_id r c).filter (keyB u p) =
      [RatingRow.mk u p r c] := by
  induction items with
  | nil => simp at hp
  | cons it items ih =>
      rw [List.map_cons] at hnd hp
      rw [List.nodup_cons] at hnd
      rw [List.map_cons, List.filter_cons]
      by_cases hit : it.product_id = p
      · rw [if_pos (show keyB u p (RatingRow.mk u it.product_id r c) = true by
          simp [keyB, hit])]
        have hrest : (items.map fun it2 =>
            RatingRow.mk u it2.product_id r c).filter (keyB u p) = [] := by
          apply List.filter_eq_nil_iff.mpr
          intro b hb hkb
          obtain ⟨it2, hit2, rfl⟩ := List.mem_map.mp hb
          apply hnd.1
          rw [hit]
          exact List.mem_map.mpr ⟨it2, hit2, (keyB_true.mp hkb).2⟩
        rw [hrest, hit]
      · rw [if_neg (show ¬keyB u p (RatingRow.mk u it.product_id r c) = true by
          simp [keyB, hit])]
        apply ih hnd.2
        rcases List.mem_cons.mp hp with h | h
        · exact absurd h.symm hit
        · exact h

theorem ratingsKeyUnique_filter_len (u p : Nat) :
    ∀ {rs : List RatingRow}, ratingsKeyUnique rs →
      (rs.filter (keyB u p)).length ≤ 1 := by
  intro rs
  induction rs with
  | nil => intro _; simp
  | cons x xs ih =>
      intro h
      rw [ratingsKeyUnique, List.pairwise_cons] at h
      obtain ⟨hx, hxs⟩ := h
      rw [List.filter_cons]
      by_cases hk : x.user_id = u ∧ x.product_id = p
      · rw [if_pos (keyB_true.mpr hk)]
        have hnil : xs.filter (keyB u p) = [] := by
          apply List.filter_eq_nil_iff.mpr
          intro b hb hkb
          have hbk := keyB_true.mp hkb
          exact hx b hb ⟨hk.1.trans hbk.1.symm, hk.2.trans hbk.2.symm⟩
        rw [hnil]
        simp
      · rw [if_neg (fun hh => hk (keyB_true.mp hh))]
        exact ih hxs

/-- C4: submitting a rating twice for the same (user, product) pair — here
through two `rateOrder` calls on the same owned order — leaves exactly one
stored row for the pair, carrying the rating and comment of the latest
submission.  The hypotheses are the found order row, distinct product ids
inside it, valid rating values, and the unique-key invariant the live
table enforces. -/
theorem rating_resubmit_single_row (s : DBState) (u oid p : Nat)
    (r1 r2 : Int) (c1 c2 : Option String) (o : OrderRow)
    (hfind : (s.orders.find? fun o2 =>
        decide (o2.id = oid) && decide (o2.user_id = u)) = some o)
    (hnd : (o.items.map fun it => it.product_id).Nodup)
    (hp : p ∈ o.items.map fun it => it.product_id)
    (hr1 : 1 ≤ r1 ∧ r1 ≤ 5) (hr2 : 1 ≤ r2 ∧ r2 ≤ 5)
    (huniq : ratingsKeyUnique s.ratings) :
    (((rateOrder u oid r2 c2 (rateOrder u oid r1 c1 s).2).2.ratings.filter
        (keyB u p)).map fun x => (x.rating, x.comment)) = [(r2, c2)] := by
  have hg1 : ¬(r1 < 1 ∨ 5 < r1) := by push_neg; exact hr1
  have hg2 : ¬(r2 < 1 ∨ 5 < r2) := by push_neg; exact hr2
  have e1 : rateOrder u oid r1 c1 s =
      (.ok (), { s with ratings :=
        (upsertRatings (o.items.map fun it => RatingRow.mk u it.product_id r1 c1)
          s.ratings) }) := by
    rw [rateOrder, hfind]
    dsimp only
    rw [if_neg hg1, if_neg (by simp [hnd])]
  have e2 : (rateOrder u oid r2 c2 (rateOrder u oid r1 c1 s).2).2.ratings =
      upsertRatings (o.items.map fun it => RatingRow.mk u it.product_id r2 c2)
        (upsertRatings (o.items.map fun it => RatingRow.mk u it.product_id r1 c1)
          s.ratings) := by
    rw [e1]
    dsimp only
    rw [rateOrder]
    dsimp only
    rw [hfind]
    dsimp only
    rw [if_neg hg2, if_neg (by simp [hnd])]
  rw [e2, filter_upsertRatings, filter_upsertRatings,
    batch_filter_single u p r2 c2 o.items hnd hp,
    batch_filter_single u p r1 c1 o.items hnd hp]
  have hF := ratingsKeyUnique_filter_len u p huniq
  cases hFc : s.ratings.filter (keyB u p) with
  | nil =>
      simp [upsertRatings, upsertRating, sameRatingKey]
  | cons x xs =>
      rw [hFc] at hF
      have hxs : xs = [] := by
        cases xs with
        | nil => rfl
        | cons y ys => simp at hF
      subst hxs
      have hxmem : x ∈ s.ratings.filter (keyB u p) := by
        rw [hFc]
        exact List.mem_cons_self _ _
      have hkx := keyB_true.mp (List.mem_filter.mp hxmem).2
      simp [upsertRatings, upsertRating, sameRatingKey, hkx.1, hkx.2]

/-- C4 witness: rating order 1 of `paidOrderState` twice for product 10. -/
theorem rating_resubmit_single_row_witness :
    (((rateOrder 7 1 5 (some "great")
        (rateOrder 7 1 3 none paidOrderState).2).2.ratings.filter
          (keyB 7 10)).map fun x => (x.rating, x.comment)) =
      [((5 : Int), some "great")] :=
  rating_resubmit_single_row paidOrderState 7 1 10 3 5 none (some "great")
    { id := 1, user_id := 7, vendor_id := 1,
      items := [{ user_id := 7, product_id := 10, quantity := 2,
                  product := { id := 10, name := "Widget",
                               price := 1000, vendor_id := 1 } }],
      total := 2000, status := .paid }
    (by decide) (by decide) (by decide) (by decide) (by decide)
    (by simp [ratingsKeyUnique, paidOrderState])

/-! ## Helper lemmas: cart key uniqueness -/

theorem cart_find_eq (it : InsertCartItem) :
    ∀ {cs : List CartRow}, cartKeyUnique cs → ∀ {c0 : CartRow}, c0 ∈ cs →
      c0.user_id = it.user_id → c0.product_id = it.product_id →
      (cs.find? fun c => decide (c.user_id = it.user_id) &&
        decide (c.product_id = it.product_id)) = some c0 := by
  intro cs
  induction cs with
  | nil => intro _ c0 h; simp at h
  | cons x xs ih =>
      intro hu c0 hc0 h1 h2
      rw [cartKeyUnique, List.pairwise_cons] at hu
      obtain ⟨hx, hxs⟩ := hu
      by_cases hpx : x.user_id = it.user_id ∧ x.product_id = it.product_id
      · rw [List.find?_cons_of_pos _ (by simp [hpx.1, hpx.2])]
        rcases List.mem_cons.mp hc0 with rfl | hmem
        · rfl
        · exact absurd ⟨hpx.1.trans h1.symm, hpx.2.trans h2.symm⟩ (hx c0 hmem)
      · rw [List.find?_cons_of_neg _ (by simp [hpx])]
        rcases List.mem_cons.mp hc0 with rfl | hmem
        · exact absurd ⟨h1, h2⟩ hpx
        · exact ih hxs hmem h1 h2

theorem cartKeyUnique_map_of_keys {cs : List CartRow} (f : CartRow → CartRow)
    (hf : ∀ c, (f c).user_id = c.user_id ∧ (f c).product_id = c.product_id)
    (h : cartKeyUnique cs) : cartKeyUnique (cs.map f) := by
  refine List.Pairwise.map f ?_ h
  intro a b hab hcontra
  exact hab ⟨((hf a).1.symm.trans hcontra.1).trans (hf b).1,
    ((hf a).2.symm.trans hcontra.2).trans (hf b).2⟩

/-- C10 counterexample: `addToCart` with a requested quantity of 0 on an
already-present (user, product) pair increments the line by 1 (the JS
`quantity || 1` fallback treats 0 as absent), not by the requested amount
0: user 7's line for product 10 goes from quantity 2 to 3. -/
theorem addToCart_zero_quantity_adds_one :
    (addToCart { user_id := 7, product_id := 10, quantity := some 0 }
        demoState).cart =
      [{ user_id := 7, product_id := 10, quantity := 3 },
       { user_id := 7, product_id := 11, quantity := 1 }] := by
  decide

/-- C10 amended: every cart operation preserves the at-most-one-line-per-
(user, product) invariant; `addToCart` on a present pair updates that
line's quantity in place — adding `quantity || 1`, i.e. the requested
amount when nonzero and 1 when the quantity is absent or 0 — inserting no
new line and leaving all other lines untouched, and on an absent pair
appends exactly one new line. -/
theorem cart_single_line_per_pair (s : DBState) (it : InsertCartItem)
    (u pid : Nat) (q : Int) (hu : cartKeyUnique s.cart) :
    cartKeyUnique (addToCart it s).cart ∧
    cartKeyUnique (updateCartItem u pid q s).cart ∧
    cartKeyUnique (removeFromCart u pid s).cart ∧
    cartKeyUnique (clearCart u s).cart ∧
    (∀ c0 ∈ s.cart, c0.user_id = it.user_id → c0.product_id = it.product_id →
      (addToCart it s).cart.length = s.cart.length ∧
      ({ user_id := c0.user_id, product_id := c0.product_id,
         quantity := c0.quantity + jsQuantityOr1 it.quantity } : CartRow) ∈
        (addToCart it s).cart ∧
      (∀ c ∈ s.cart, ¬(c.user_id = it.user_id ∧ c.product_id = it.product_id) →
        c ∈ (addToCart it s).cart)) ∧
    ((∀ c0 ∈ s.cart, ¬(c0.user_id = it.user_id ∧ c0.product_id = it.product_id)) →
      (addToCart it s).cart =
        s.cart ++ [{ user_id := it.user_id, product_id := it.product_id,
                     quantity := it.quantity.getD 1 }]) := by
  refine ⟨?_, ?_, ?_, ?_, ?_, ?_⟩
  · rw [addToCart]
    cases hfind : s.cart.find? fun c => decide (c.user_id = it.user_id) &&
        decide (c.product_id = it.product_id) with
    | some existing =>
        apply cartKeyUnique_map_of_keys _ ?_ hu
        intro c
        by_cases hc : (decide (c.user_id = it.user_id) &&
            decide (c.product_id = it.product_id)) = true
        · rw [if_pos hc]
          exact ⟨rfl, rfl⟩
        · rw [if_neg hc]
          exact ⟨rfl, rfl⟩
    | none =>
        rw [cartKeyUnique, List.pairwise_append]
        refine ⟨hu, List.pairwise_singleton _ _, ?_⟩
        intro a ha b hb
        rw [List.mem_singleton] at hb
        subst hb
        have := List.find?_eq_none.mp hfind a ha
        intro hcontra
        apply this
        simp [hcontra.1, hcontra.2]
  · apply cartKeyUnique_map_of_keys _ ?_ hu
    intro c
    by_cases hc : (decide (c.user_id = u) && decide (c.product_id = pid)) = true
    · rw [if_pos hc]
      exact ⟨rfl, rfl⟩
    · rw [if_neg hc]
      exact ⟨rfl, rfl⟩
  · exact List.Pairwise.filter _ hu
  · exact List.Pairwise.filter _ hu
  · intro c0 hc0 h1 h2
    rw [addToCart, cart_find_eq it hu hc0 h1 h2]
    refine ⟨List.length_map _ _, ?_, ?_⟩
    · refine List.mem_map.mpr ⟨c0, hc0, ?_⟩
      simp [h1, h2]
    · intro c hc hck
      refine List.mem_map.mpr ⟨c, hc, ?_⟩
      simp [hck]
  · intro hnone
    rw [addToCart]
    have : (s.cart.find? fun c => decide (c.user_id = it.user_id) &&
        decide (c.product_id = it.product_id)) = none := by
      apply List.find?_eq_none.mpr
      intro c hc
      simp [hnone c hc]
    rw [this]

/-- The concrete add-to-cart request used in the C10 witness. -/
def witnessItem : InsertCartItem :=
  { user_id := 7, product_id := 10, quantity := some 4 }

/-- C10 amended witness: `demoState`'s cart, adding product 10 again for
user 7. -/
theorem cart_single_line_per_pair_witness :
    cartKeyUnique (addToCart witnessItem demoState).cart ∧
    cartKeyUnique (updateCartItem 7 10 9 demoState).cart ∧
    cartKeyUnique (removeFromCart 7 10 demoState).cart ∧
    cartKeyUnique (clearCart 7 demoState).cart ∧
    (∀ c0 ∈ demoState.cart,
      c0.user_id = witnessItem.user_id → c0.product_id = witnessItem.product_id →
      (addToCart witnessItem demoState).cart.length = demoState.cart.length ∧
      ({ user_id := c0.user_id, product_id := c0.product_id,
         quantity := c0.quantity + jsQuantityOr1 witnessItem.quantity } : CartRow) ∈
        (addToCart witnessItem demoState).cart ∧
      (∀ c ∈ demoState.cart,
        ¬(c.user_id = witnessItem.user_id ∧ c.product_id = witnessItem.product_id) →
        c ∈ (addToCart witnessItem demoState).cart)) ∧
    ((∀ c0 ∈ demoState.cart,
        ¬(c0.user_id = witnessItem.user_id ∧ c0.product_id = witnessItem.product_id)) →
      (addToCart witnessItem demoState).cart =
        demoState.cart ++ [{ user_id := witnessItem.user_id,
                             product_id := witnessItem.product_id,
                             quantity := witnessItem.quantity.getD 1 }]) :=
  cart_single_line_per_pair demoState witnessItem 7 10 9
    (by simp [cartKeyUnique, demoState])

end SoftShop
